import Mathlib

/-!
# swanc: VPN peer synchronisation (`main.go`)

A shallow embedding of the reconciliation code of `main.go`:

* `isNodeReady`, the readiness test on a node's status conditions;
* `UpdateFunc`, the update handler registered by `WatchNodes`;
* `reloadVPN`, one reconciliation, as a function from the answers of the
  external collaborators (cluster client, file system, template, reload
  command) to the sequence of calls made and the way the run ends.

Go strings are Lean strings; `sort.Strings` orders by the built-in `<` on
strings, which is the order `≤` on `String` here.  A Go `map[string]string`
is an association list under `Option`, `none` being the nil map.
-/

namespace Swanc

/-! ## Data model -/

/-- The constant `nodeKey` of `main.go`. -/
def nodeKey : String := "net.beta.appscode.com/vpn"

/-- The address type `kapi.NodeInternalIP`. -/
def NodeInternalIP : String := "InternalIP"

/-- The address type `kapi.NodeExternalIP`. -/
def NodeExternalIP : String := "ExternalIP"

/-- One entry of `node.Status.Conditions`. -/
structure NodeCondition where
  type : String
  status : String
deriving DecidableEq, Repr

/-- One entry of `node.Status.Addresses`. -/
structure NodeAddress where
  type : String
  address : String
deriving DecidableEq, Repr

/-- The fields of `kapi.Node` that `main.go` reads or writes.  `labels` is the
Go map `node.Labels`; `none` is the nil map. -/
structure Node where
  name : String
  labels : Option (List (String × String))
  conditions : List NodeCondition
  addresses : List NodeAddress
deriving DecidableEq, Repr

/-- Lookup in a non-nil Go map: the value stored under `k`, or the zero value
`""` when `k` is absent. -/
def mapGet : List (String × String) → String → String
  | [], _ => ""
  | (k', v) :: rest, k => if k' = k then v else mapGet rest k

/-- Whether a non-nil Go map has an entry under `k`. -/
def mapHas : List (String × String) → String → Bool
  | [], _ => false
  | (k', _) :: rest, k => if k' = k then true else mapHas rest k

/-- Assignment `m[k] = v` on a non-nil Go map. -/
def mapSet : List (String × String) → String → String → List (String × String)
  | [], k, v => [(k, v)]
  | (k', v') :: rest, k, v => if k' = k then (k, v) :: rest else (k', v') :: mapSet rest k v

/-- The Go expression `labels[k]`: reading a nil map yields the zero value. -/
def labelsGet (labels : Option (List (String × String))) (k : String) : String :=
  match labels with
  | none => ""
  | some m => mapGet m k

/-! ## `isNodeReady` -/

/-- The loop of `isNodeReady` over `n.Status.Conditions`. -/
def isNodeReadyLoop : List NodeCondition → Bool
  | [] => false
  | cond :: rest =>
    if cond.type = "Ready" ∧ cond.status = "True" then true else isNodeReadyLoop rest

/-- The function `isNodeReady`. -/
def isNodeReady (n : Node) : Bool := isNodeReadyLoop n.conditions

/-! ## `WatchNodes`: the update handler -/

/-- An `interface{}` value handed to an event handler: a `*kapi.Node` or a
value of another dynamic type. -/
inductive Obj where
  | node (n : Node)
  | other
deriving DecidableEq, Repr

/-- The `UpdateFunc` handler: the number of sends on `s.reload` it performs. -/
def UpdateFunc (old new : Obj) : Nat :=
  match old with
  | .other => 0
  | .node oldNode =>
    match new with
    | .other => 0
    | .node newNode =>
      if labelsGet oldNode.labels nodeKey ≠ labelsGet newNode.labels nodeKey ∨
          isNodeReady oldNode ≠ isNodeReady newNode then 1
      else 0

/-! ## `reloadVPN`: the membership loop -/

/-- An address loop of `reloadVPN`: starting from `ip = ""`, the address of the
first entry of type `t`, at which the loop breaks. -/
def firstAddress (t : String) : List NodeAddress → String
  | [] => ""
  | addr :: rest => if addr.type = t then addr.address else firstAddress t rest

/-- The IP `reloadVPN` computes for a node (lines 155-169): the internal
address loop, then, when `ip` is still `""`, the external address loop. -/
def resolveIP (node : Node) : String :=
  let ip := firstAddress NodeInternalIP node.addresses
  if ip = "" then firstAddress NodeExternalIP node.addresses else ip

/-- The variables the node loop of `reloadVPN` updates. -/
structure LoopState where
  nodeIPs : List String
  i : Nat
  hasLabel : Bool
deriving DecidableEq, Repr

/-- One iteration of the node loop of `reloadVPN`. -/
def loopStep (nodeIP : String) (st : LoopState) (node : Node) : LoopState :=
  if ¬ isNodeReady node then st
  else
    let ip := resolveIP node
    if ip ≠ nodeIP then { st with nodeIPs := st.nodeIPs.set st.i ip, i := st.i + 1 }
    else { st with hasLabel := true }

/-- The node loop of `reloadVPN`, from `nodeIPs = make([]string, len(items))`,
`i = 0`, `hasLabel = false`. -/
def nodeLoop (nodeIP : String) (items : List Node) : LoopState :=
  items.foldl (loopStep nodeIP) ⟨List.replicate items.length "", 0, false⟩

/-- The flag `hasLabel` after the node loop. -/
def hasLabel (nodeIP : String) (items : List Node) : Bool :=
  (nodeLoop nodeIP items).hasLabel

/-- The Go comparison `a <= b` on strings: lexicographic order on the
characters. -/
def strLe (a b : String) : Prop := a.toList ≤ b.toList

instance strLe.decidable : DecidableRel strLe :=
  fun a b => inferInstanceAs (Decidable (a.toList ≤ b.toList))

/-- The function `sort.Strings`: the ascending rearrangement of a slice. -/
def sortStrings (l : List String) : List String :=
  l.insertionSort strLe

/-- The Peer Set of one run: `nodeIPs[:i]`, sorted when `i > 0`. -/
def peerSet (nodeIP : String) (items : List Node) : List String :=
  let st := nodeLoop nodeIP items
  let nodeIPs := st.nodeIPs.take st.i
  if st.i > 0 then sortStrings nodeIPs else nodeIPs

/-! ## `reloadVPN`: calls and outcome -/

/-- The local identity held by the `syncer`, and the package constant
`reloadCmd` the run hands to `exec.Command` after splitting on spaces. -/
structure Syncer where
  nodeName : String
  nodeIP : String
  reloadCmd : String
deriving DecidableEq, Repr

/-- The answers of the external collaborators during one run: `none` in an
error position is a nil error. -/
structure Env where
  listResult : Except String (List Node)
  getResult : String → Except String Node
  updateResult : Node → Option String
  openResult : Option String
  executeResult : String → List String → Option String
  closeResult : Option String
  runResult : Option String

/-- A call `reloadVPN` makes on an external collaborator. -/
inductive Event where
  | list
  | get (name : String)
  | update (node : Node)
  | openFile
  | execute (hostIP : String) (nodeIPs : List String)
  | close
  | run (cmd : String)
deriving DecidableEq, Repr

/-- How a run of `reloadVPN` ends: it returns, it exits through
`log.Fatalln`, or it panics. -/
inductive Outcome where
  | returned
  | fatal (err : String)
  | panicked
deriving DecidableEq, Repr

/-- The calls made by a run, in order, and how the run ends. -/
structure Run where
  trace : List Event
  outcome : Outcome
deriving DecidableEq, Repr

/-- Lines 190-214 of `reloadVPN`: the render and reload steps, after the calls
`pre` made so far, from the variables left by the node loop. -/
def renderAndReload (s : Syncer) (env : Env) (pre : List Event) (st : LoopState) : Run :=
  let nodeIPs := st.nodeIPs.take st.i
  if st.i > 0 then
    let nodeIPs := sortStrings nodeIPs
    match env.openResult with
    | some err => ⟨pre ++ [.openFile], .fatal err⟩
    | none =>
      -- the error of `cfgTemplate.Execute` is assigned and never read
      let _err := env.executeResult s.nodeIP nodeIPs
      match env.closeResult with
      | some err => ⟨pre ++ [.openFile, .execute s.nodeIP nodeIPs, .close], .fatal err⟩
      | none =>
        match env.runResult with
        | some err =>
          ⟨pre ++ [.openFile, .execute s.nodeIP nodeIPs, .close, .run s.reloadCmd], .fatal err⟩
        | none =>
          ⟨pre ++ [.openFile, .execute s.nodeIP nodeIPs, .close, .run s.reloadCmd], .returned⟩
  else ⟨pre, .returned⟩

/-- The function `reloadVPN`. -/
def reloadVPN (s : Syncer) (env : Env) : Run :=
  match env.listResult with
  | .error err => ⟨[.list], .fatal err⟩
  | .ok items =>
    let st := nodeLoop s.nodeIP items
    if ¬ st.hasLabel then
      match env.getResult s.nodeName with
      | .error err => ⟨[.list, .get s.nodeName], .fatal err⟩
      | .ok node =>
        match node.labels with
        | none => ⟨[.list, .get s.nodeName], .panicked⟩
        | some m =>
          let node := { node with labels := some (mapSet m nodeKey "true") }
          match env.updateResult node with
          | some err => ⟨[.list, .get s.nodeName, .update node], .fatal err⟩
          | none => renderAndReload s env [.list, .get s.nodeName, .update node] st
    else renderAndReload s env [.list] st

/-- The update calls of a trace, in order. -/
def updateCalls : List Event → List Node
  | [] => []
  | .update n :: rest => n :: updateCalls rest
  | _ :: rest => updateCalls rest

/-- The number of config writes of a trace: the calls rendering the template
into the config file. -/
def writeCount : List Event → Nat
  | [] => 0
  | .execute _ _ :: rest => writeCount rest + 1
  | _ :: rest => writeCount rest

/-- The number of invocations of the reload command in a trace. -/
def reloadCount : List Event → Nat
  | [] => 0
  | .run _ :: rest => reloadCount rest + 1
  | _ :: rest => reloadCount rest

/-! ## Scenario values -/

/-- A node whose single condition is `Ready=True`. -/
def readyNode (name : String) (labels : Option (List (String × String)))
    (addresses : List NodeAddress) : Node :=
  ⟨name, labels, [⟨"Ready", "True"⟩], addresses⟩

/-- The label map holding only the membership label. -/
def memberLabels : Option (List (String × String)) := some [(nodeKey, "true")]

/-- An environment in which every call succeeds. -/
def okEnv (items : List Node) (get : String → Except String Node) : Env :=
  ⟨.ok items, get, fun _ => none, none, fun _ _ => none, none, none⟩

/-- The cluster client over a fixed list of node objects, every call
succeeding: `List` under `nodeSelector` returns the nodes whose label
`nodeKey` is `"true"`, `Get` returns the node of the given name. -/
def clusterEnv (cluster : List Node) : Env :=
  okEnv (cluster.filter (fun n => labelsGet n.labels nodeKey = "true"))
    (fun name =>
      match cluster.find? (fun n => n.name = name) with
      | some n => .ok n
      | none => .error "not found")

/-- The local identity of the scenarios: node `A` at 10.0.0.1. -/
def syncerA : Syncer := ⟨"A", "10.0.0.1", "ipsec reload"⟩

/-- Node `A`: labeled, ready, internal IP 10.0.0.1. -/
def nodeA : Node := readyNode "A" memberLabels [⟨NodeInternalIP, "10.0.0.1"⟩]

/-- Node `B`: labeled, ready, internal IP 10.0.0.3. -/
def nodeB : Node := readyNode "B" memberLabels [⟨NodeInternalIP, "10.0.0.3"⟩]

/-- Node `C`: labeled, ready, internal IP 10.0.0.2. -/
def nodeC : Node := readyNode "C" memberLabels [⟨NodeInternalIP, "10.0.0.2"⟩]

/-- Node `A` before it carries the membership label: a non-nil label map
without `nodeKey`. -/
def nodeAUnlabeled : Node :=
  readyNode "A" (some [("kubernetes.io/hostname", "a")]) [⟨NodeInternalIP, "10.0.0.1"⟩]

/-- Node `A` with a nil label map. -/
def nodeANil : Node := readyNode "A" none [⟨NodeInternalIP, "10.0.0.1"⟩]

/-! ## The address rule as the specification words it -/

/-- The first entry of type `t` of an address list, if any. -/
def firstOfType (t : String) (addrs : List NodeAddress) : Option NodeAddress :=
  addrs.find? (fun a => a.type = t)

/-- The resolution rule as the specification states it: the address of the
first internal entry if there is one, otherwise that of the first external
entry if there is one, otherwise the empty string. -/
def resolveIPStated (node : Node) : String :=
  match firstOfType NodeInternalIP node.addresses with
  | some a => a.address
  | none =>
    match firstOfType NodeExternalIP node.addresses with
    | some a => a.address
    | none => ""

/-- The resolution rule with the internal entry used only when its address is
not empty. -/
def resolveIPNonEmpty (node : Node) : String :=
  match (firstOfType NodeInternalIP node.addresses).filter (fun a => a.address ≠ "") with
  | some a => a.address
  | none =>
    match firstOfType NodeExternalIP node.addresses with
    | some a => a.address
    | none => ""

/-- A ready node whose first internal entry has an empty address and which
also has an external entry. -/
def nodeEmptyInternal : Node :=
  readyNode "D" memberLabels [⟨NodeInternalIP, ""⟩, ⟨NodeExternalIP, "203.0.113.7"⟩]

/-- A ready node with neither an internal nor an external entry. -/
def nodeNoAddress : Node := readyNode "E" memberLabels [⟨"Hostname", "e"⟩]

/-- Node `B` with its `Ready` condition turned to `False`. -/
def nodeBNotReady : Node := { nodeB with conditions := [⟨"Ready", "False"⟩] }

/-! ## Auxiliary functions of the proofs -/

/-- The resolved IPs of the ready nodes that differ from `nodeIP`, in list
order. -/
def peerIPs (nodeIP : String) (items : List Node) : List String :=
  ((items.filter (fun n => isNodeReady n)).map resolveIP).filter (fun ip => ip ≠ nodeIP)

/-- Whether some ready node resolves to `nodeIP`. -/
def selfSeen (nodeIP : String) (items : List Node) : Bool :=
  items.any (fun n => isNodeReady n && decide (resolveIP n = nodeIP))

/-- The render and reload steps as a function of the Peer Set. -/
def renderPeers (s : Syncer) (env : Env) (pre : List Event) (peers : List String) : Run :=
  if peers.length > 0 then
    match env.openResult with
    | some err => ⟨pre ++ [.openFile], .fatal err⟩
    | none =>
      match env.closeResult with
      | some err => ⟨pre ++ [.openFile, .execute s.nodeIP peers, .close], .fatal err⟩
      | none =>
        match env.runResult with
        | some err =>
          ⟨pre ++ [.openFile, .execute s.nodeIP peers, .close, .run s.reloadCmd], .fatal err⟩
        | none =>
          ⟨pre ++ [.openFile, .execute s.nodeIP peers, .close, .run s.reloadCmd], .returned⟩
  else ⟨pre, .returned⟩

/-! ## The node loop -/

theorem foldl_loopStep (nodeIP : String) (items : List Node) :
    ∀ (acc pad : List String) (h : Bool), items.length ≤ pad.length →
      items.foldl (loopStep nodeIP) ⟨acc ++ pad, acc.length, h⟩ =
        ⟨acc ++ peerIPs nodeIP items ++ pad.drop (peerIPs nodeIP items).length,
         acc.length + (peerIPs nodeIP items).length, h || selfSeen nodeIP items⟩ := by
  induction items with
  | nil => intro acc pad h _; simp [peerIPs, selfSeen]
  | cons node rest ih =>
    intro acc pad h hlen
    rw [List.foldl_cons]
    by_cases hr : isNodeReady node = true
    · by_cases hip : resolveIP node = nodeIP
      · have hstep : loopStep nodeIP ⟨acc ++ pad, acc.length, h⟩ node =
            ⟨acc ++ pad, acc.length, true⟩ := by
          simp [loopStep, hr, hip]
        rw [hstep, ih acc pad true (by simp at hlen; omega)]
        simp [peerIPs, selfSeen, hr, hip]
      · cases pad with
        | nil => simp at hlen
        | cons p pad =>
          have hstep : loopStep nodeIP ⟨acc ++ p :: pad, acc.length, h⟩ node =
              ⟨(acc ++ [resolveIP node]) ++ pad, (acc ++ [resolveIP node]).length, h⟩ := by
            simp [loopStep, hr, hip]
          rw [hstep, ih (acc ++ [resolveIP node]) pad h (by simp at hlen; omega)]
          simp [peerIPs, selfSeen, hr, hip, Nat.add_assoc, Nat.add_comm 1]
    · have hstep : loopStep nodeIP ⟨acc ++ pad, acc.length, h⟩ node =
          ⟨acc ++ pad, acc.length, h⟩ := by
        simp [loopStep, hr]
      rw [hstep, ih acc pad h (by simp at hlen; omega)]
      simp [peerIPs, selfSeen, hr]

theorem nodeLoop_eq (nodeIP : String) (items : List Node) :
    nodeLoop nodeIP items =
      ⟨peerIPs nodeIP items ++
          (List.replicate items.length "").drop (peerIPs nodeIP items).length,
        (peerIPs nodeIP items).length, selfSeen nodeIP items⟩ := by
  have h := foldl_loopStep nodeIP items [] (List.replicate items.length "") false (by simp)
  simpa [nodeLoop] using h

theorem hasLabel_eq (nodeIP : String) (items : List Node) :
    hasLabel nodeIP items = selfSeen nodeIP items := by
  simp [hasLabel, nodeLoop_eq]

theorem peerSet_eq (nodeIP : String) (items : List Node) :
    peerSet nodeIP items = sortStrings (peerIPs nodeIP items) := by
  simp only [peerSet, nodeLoop_eq, List.take_left']
  split
  · rfl
  · next h =>
    have h0 : peerIPs nodeIP items = [] := by
      apply List.eq_nil_of_length_eq_zero; omega
    simp [h0, sortStrings]

/-! ## The order used by `sort.Strings` -/

theorem strLe_iff (a b : String) : strLe a b ↔ a ≤ b :=
  String.le_iff_toList_le.symm

instance strLe.isTotal : IsTotal String strLe :=
  ⟨fun a b => by simp only [strLe_iff]; exact le_total a b⟩

instance strLe.isTrans : IsTrans String strLe :=
  ⟨fun a b c => by simp only [strLe_iff]; exact le_trans⟩

instance strLe.isAntisymm : IsAntisymm String strLe :=
  ⟨fun a b => by simp only [strLe_iff]; exact le_antisymm⟩

theorem sortStrings_perm (l : List String) : (sortStrings l).Perm l :=
  List.perm_insertionSort strLe l

theorem sortStrings_sorted (l : List String) :
    List.Sorted (fun a b : String => a ≤ b) (sortStrings l) :=
  List.Pairwise.imp (fun {a b} h => (strLe_iff a b).mp h) (List.sorted_insertionSort strLe l)

theorem sortStrings_congr {l₁ l₂ : List String} (h : l₁.Perm l₂) :
    sortStrings l₁ = sortStrings l₂ :=
  List.eq_of_perm_of_sorted
    (((sortStrings_perm l₁).trans h).trans (sortStrings_perm l₂).symm)
    (List.sorted_insertionSort strLe l₁) (List.sorted_insertionSort strLe l₂)

theorem peerIPs_perm (nodeIP : String) {l₁ l₂ : List Node} (h : l₁.Perm l₂) :
    (peerIPs nodeIP l₁).Perm (peerIPs nodeIP l₂) :=
  ((h.filter _).map _).filter _

theorem selfSeen_perm (nodeIP : String) {l₁ l₂ : List Node} (h : l₁.Perm l₂) :
    selfSeen nodeIP l₁ = selfSeen nodeIP l₂ := by
  rw [Bool.eq_iff_iff]
  simp only [selfSeen, List.any_eq_true]
  constructor
  · rintro ⟨n, hn, hp⟩; exact ⟨n, h.mem_iff.mp hn, hp⟩
  · rintro ⟨n, hn, hp⟩; exact ⟨n, h.mem_iff.mpr hn, hp⟩

theorem mem_peerSet_iff (nodeIP ip : String) (items : List Node) :
    ip ∈ peerSet nodeIP items ↔
      ∃ n ∈ items, isNodeReady n = true ∧ resolveIP n = ip ∧ ip ≠ nodeIP := by
  rw [peerSet_eq, (sortStrings_perm _).mem_iff]
  simp only [peerIPs, List.mem_filter, List.mem_map, decide_eq_true_eq]
  constructor
  · rintro ⟨⟨n, ⟨hn, hr⟩, rfl⟩, hne⟩; exact ⟨n, hn, hr, rfl, hne⟩
  · rintro ⟨n, hn, hr, rfl, hne⟩; exact ⟨⟨n, ⟨hn, hr⟩, rfl⟩, hne⟩

theorem renderAndReload_nodeLoop (s : Syncer) (env : Env) (pre : List Event)
    (nodeIP : String) (items : List Node) :
    renderAndReload s env pre (nodeLoop nodeIP items) =
      renderPeers s env pre (peerSet nodeIP items) := by
  have hlen : (sortStrings (peerIPs nodeIP items)).length = (peerIPs nodeIP items).length :=
    (sortStrings_perm _).length_eq
  simp only [renderAndReload, renderPeers, peerSet_eq, nodeLoop_eq, List.take_left', hlen]

/-- The run in terms of the flag `hasLabel` and the Peer Set. -/
theorem reloadVPN_eq (s : Syncer) (env : Env) :
    reloadVPN s env =
      match env.listResult with
      | .error err => ⟨[.list], .fatal err⟩
      | .ok items =>
        if ¬ hasLabel s.nodeIP items then
          match env.getResult s.nodeName with
          | .error err => ⟨[.list, .get s.nodeName], .fatal err⟩
          | .ok node =>
            match node.labels with
            | none => ⟨[.list, .get s.nodeName], .panicked⟩
            | some m =>
              match env.updateResult { node with labels := some (mapSet m nodeKey "true") } with
              | some err =>
                ⟨[.list, .get s.nodeName,
                  .update { node with labels := some (mapSet m nodeKey "true") }], .fatal err⟩
              | none =>
                renderPeers s env
                  [.list, .get s.nodeName,
                    .update { node with labels := some (mapSet m nodeKey "true") }]
                  (peerSet s.nodeIP items)
        else renderPeers s env [.list] (peerSet s.nodeIP items) := by
  unfold reloadVPN
  simp only [renderAndReload_nodeLoop, hasLabel]

/-- Every template rendering of a run is handed the local IP and the Peer Set
of the listed nodes. -/
theorem execute_mem_trace (s : Syncer) (env : Env) (items : List Node)
    (hl : env.listResult = .ok items) (hostIP : String) (ips : List String)
    (h : Event.execute hostIP ips ∈ (reloadVPN s env).trace) :
    hostIP = s.nodeIP ∧ ips = peerSet s.nodeIP items := by
  rw [reloadVPN_eq] at h
  unfold renderPeers at h
  rw [hl] at h
  simp only at h
  repeat' split at h
  all_goals simp at h
  all_goals exact h

/-! ## The Peer Set -/

/-- C1: for every list of nodes returned by the cluster and every local
identity, the Peer Set computed by `reloadVPN` has no entry equal to `nodeIP`,
and every list handed to the template is that Peer Set. -/
theorem peerSet_excludes_nodeIP (s : Syncer) (env : Env) (items : List Node)
    (hl : env.listResult = .ok items) :
    s.nodeIP ∉ peerSet s.nodeIP items ∧
      ∀ hostIP ips, Event.execute hostIP ips ∈ (reloadVPN s env).trace →
        ips = peerSet s.nodeIP items ∧ s.nodeIP ∉ ips := by
  have hnot : s.nodeIP ∉ peerSet s.nodeIP items := by
    intro h
    obtain ⟨_, _, _, _, hne⟩ := (mem_peerSet_iff _ _ _).mp h
    exact hne rfl
  refine ⟨hnot, fun hostIP ips h => ?_⟩
  obtain ⟨_, hips⟩ := execute_mem_trace s env items hl hostIP ips h
  exact ⟨hips, hips ▸ hnot⟩

/-- C2: for every list of nodes the Peer Set is sorted in ascending
lexicographic string order; for A (self, 10.0.0.1), B (10.0.0.3),
C (10.0.0.2), all labeled and ready, the Peer Set is [10.0.0.2, 10.0.0.3] and
it is what the run renders, followed by one reload. -/
theorem peerSet_sorted (nodeIP : String) (items : List Node) :
    List.Sorted (fun a b : String => a ≤ b) (peerSet nodeIP items) ∧
      peerSet "10.0.0.1"
          [readyNode "A" memberLabels [⟨NodeInternalIP, "10.0.0.1"⟩],
           readyNode "B" memberLabels [⟨NodeInternalIP, "10.0.0.3"⟩],
           readyNode "C" memberLabels [⟨NodeInternalIP, "10.0.0.2"⟩]] =
        ["10.0.0.2", "10.0.0.3"] ∧
      (reloadVPN ⟨"A", "10.0.0.1", "ipsec reload"⟩
          (clusterEnv
            [readyNode "A" memberLabels [⟨NodeInternalIP, "10.0.0.1"⟩],
             readyNode "B" memberLabels [⟨NodeInternalIP, "10.0.0.3"⟩],
             readyNode "C" memberLabels [⟨NodeInternalIP, "10.0.0.2"⟩]])) =
        ⟨[.list, .openFile, .execute "10.0.0.1" ["10.0.0.2", "10.0.0.3"], .close,
          .run "ipsec reload"], .returned⟩ := by
  refine ⟨?_, by decide, by decide⟩
  rw [peerSet_eq]
  exact sortStrings_sorted _

/-- C5: a listed node for which `isNodeReady` is false contributes nothing:
the Peer Set and the flag `hasLabel` are those of the list without it,
whatever its labels. -/
theorem not_ready_contributes_nothing (nodeIP : String) (pre post : List Node) (n : Node)
    (h : isNodeReady n = false) :
    peerSet nodeIP (pre ++ n :: post) = peerSet nodeIP (pre ++ post) ∧
      hasLabel nodeIP (pre ++ n :: post) = hasLabel nodeIP (pre ++ post) := by
  simp [peerSet_eq, hasLabel_eq, peerIPs, selfSeen, List.filter_cons, h]

/-- C9: for every local identity and every two node lists that are
permutations of each other, the Peer Sets and the flags `hasLabel` are
identical, and so are the whole runs of `reloadVPN`, template input
included. -/
theorem peerSet_perm_invariant (s : Syncer) (env : Env) (l₁ l₂ : List Node)
    (h : l₁.Perm l₂) :
    peerSet s.nodeIP l₁ = peerSet s.nodeIP l₂ ∧
      hasLabel s.nodeIP l₁ = hasLabel s.nodeIP l₂ ∧
      reloadVPN s { env with listResult := .ok l₁ } =
        reloadVPN s { env with listResult := .ok l₂ } := by
  have hp : peerSet s.nodeIP l₁ = peerSet s.nodeIP l₂ := by
    rw [peerSet_eq, peerSet_eq]
    exact sortStrings_congr (peerIPs_perm _ h)
  have hh : hasLabel s.nodeIP l₁ = hasLabel s.nodeIP l₂ := by
    rw [hasLabel_eq, hasLabel_eq]
    exact selfSeen_perm _ h
  refine ⟨hp, hh, ?_⟩
  simp only [reloadVPN_eq, renderPeers, hp, hh]

/-! ## Calls of a run -/

theorem updateCalls_append (l₁ l₂ : List Event) :
    updateCalls (l₁ ++ l₂) = updateCalls l₁ ++ updateCalls l₂ := by
  induction l₁ with
  | nil => rfl
  | cons e l ih => cases e <;> simp [updateCalls, ih]

theorem writeCount_append (l₁ l₂ : List Event) :
    writeCount (l₁ ++ l₂) = writeCount l₁ + writeCount l₂ := by
  induction l₁ with
  | nil => simp [writeCount]
  | cons e l ih => cases e <;> simp [writeCount, ih]; omega

theorem reloadCount_append (l₁ l₂ : List Event) :
    reloadCount (l₁ ++ l₂) = reloadCount l₁ + reloadCount l₂ := by
  induction l₁ with
  | nil => simp [reloadCount]
  | cons e l ih => cases e <;> simp [reloadCount, ih]; omega

theorem updateCalls_renderPeers (s : Syncer) (env : Env) (pre : List Event)
    (peers : List String) :
    updateCalls (renderPeers s env pre peers).trace = updateCalls pre := by
  unfold renderPeers
  repeat' split
  all_goals simp [updateCalls_append, updateCalls]

theorem hasLabel_eq_false_iff (nodeIP : String) (items : List Node) :
    hasLabel nodeIP items = false ↔
      ∀ n ∈ items, isNodeReady n = true → resolveIP n ≠ nodeIP := by
  rw [hasLabel_eq, selfSeen, List.any_eq_false]
  simp

/-- The run when no listed node answers to `nodeIP` and `Get` returns a node
with a non-nil label map. -/
theorem reloadVPN_register (s : Syncer) (env : Env) (items : List Node) (node : Node)
    (m : List (String × String)) (hl : env.listResult = .ok items)
    (hh : hasLabel s.nodeIP items = false) (hg : env.getResult s.nodeName = .ok node)
    (hm : node.labels = some m) :
    reloadVPN s env =
      match env.updateResult { node with labels := some (mapSet m nodeKey "true") } with
      | some err =>
        ⟨[.list, .get s.nodeName,
          .update { node with labels := some (mapSet m nodeKey "true") }], .fatal err⟩
      | none =>
        renderPeers s env
          [.list, .get s.nodeName,
            .update { node with labels := some (mapSet m nodeKey "true") }]
          (peerSet s.nodeIP items) := by
  rw [reloadVPN_eq, hl]
  simp only [hh, hg, hm]
  simp

theorem mapGet_mapSet_self (m : List (String × String)) (k v : String) :
    mapGet (mapSet m k v) k = v := by
  induction m with
  | nil => simp [mapSet, mapGet]
  | cons kv rest ih =>
    obtain ⟨k', v'⟩ := kv
    by_cases h : k' = k <;> simp [mapSet, mapGet, h, ih]

theorem mapHas_mapSet_self (m : List (String × String)) (k v : String) :
    mapHas (mapSet m k v) k = true := by
  induction m with
  | nil => simp [mapSet, mapHas]
  | cons kv rest ih =>
    obtain ⟨k', v'⟩ := kv
    by_cases h : k' = k <;> simp [mapSet, mapHas, h, ih]

theorem mapGet_mapSet_of_ne (m : List (String × String)) (k v k₀ : String) (hk : k₀ ≠ k) :
    mapGet (mapSet m k v) k₀ = mapGet m k₀ := by
  induction m with
  | nil => simp [mapSet, mapGet, Ne.symm hk]
  | cons kv rest ih =>
    obtain ⟨k', v'⟩ := kv
    by_cases h : k' = k
    · subst h; simp [mapSet, mapGet, Ne.symm hk]
    · by_cases h₀ : k' = k₀
      · subst h₀; simp [mapSet, mapGet, h]
      · simp [mapSet, mapGet, h, h₀, ih]

theorem mapHas_mapSet_of_ne (m : List (String × String)) (k v k₀ : String) (hk : k₀ ≠ k) :
    mapHas (mapSet m k v) k₀ = mapHas m k₀ := by
  induction m with
  | nil => simp [mapSet, mapHas, Ne.symm hk]
  | cons kv rest ih =>
    obtain ⟨k', v'⟩ := kv
    by_cases h : k' = k
    · subst h; simp [mapSet, mapHas, Ne.symm hk]
    · by_cases h₀ : k' = k₀
      · subst h₀; simp [mapSet, mapHas, h]
      · simp [mapSet, mapHas, h, h₀, ih]

/-! ## Render and reload -/

/-- C3: for every run of `reloadVPN` that returns, when the Peer Set is empty
no config file is opened or written and the reload command is not invoked;
when it is non-empty the run ends with one open, one template write, one close
and one reload, in this order, and no write or reload precedes them. -/
theorem write_and_reload_gated (s : Syncer) (env : Env)
    (h : (reloadVPN s env).outcome = .returned) :
    ∃ items, env.listResult = .ok items ∧
      (peerSet s.nodeIP items = [] →
        writeCount (reloadVPN s env).trace = 0 ∧ reloadCount (reloadVPN s env).trace = 0 ∧
          Event.openFile ∉ (reloadVPN s env).trace) ∧
      (peerSet s.nodeIP items ≠ [] →
        ∃ pre, (reloadVPN s env).trace =
            pre ++ [.openFile, .execute s.nodeIP (peerSet s.nodeIP items), .close,
              .run s.reloadCmd] ∧
          writeCount pre = 0 ∧ reloadCount pre = 0 ∧ Event.openFile ∉ pre ∧
          writeCount (reloadVPN s env).trace = 1 ∧
          reloadCount (reloadVPN s env).trace = 1) := by
  cases hl : env.listResult with
  | error e => simp [reloadVPN, hl] at h
  | ok items =>
    refine ⟨items, rfl, ?_, ?_⟩
    · intro hp
      rw [reloadVPN_eq] at h ⊢
      unfold renderPeers at h ⊢
      simp only [hl, hp] at h ⊢
      repeat' split
      all_goals simp_all [writeCount, reloadCount]
    · intro hp
      have hlen : (peerSet s.nodeIP items).length > 0 := List.length_pos.mpr hp
      rw [reloadVPN_eq] at h ⊢
      unfold renderPeers at h ⊢
      simp only [hl, hlen, if_true] at h ⊢
      repeat' split
      all_goals first
        | (exfalso; simp_all; done)
        | exact ⟨_, rfl, by simp [writeCount], by simp [reloadCount], by simp,
            by simp [writeCount], by simp [reloadCount]⟩

/-- C8, at a failing template: with the Peer Set [10.0.0.3] and `Execute`
returning an error, the run makes every call, reload included, and returns. -/
theorem template_error_ignored :
    reloadVPN syncerA
        { clusterEnv [nodeA, nodeB] with executeResult := fun _ _ => some "template: failed" } =
      ⟨[.list, .openFile, .execute "10.0.0.1" ["10.0.0.3"], .close, .run "ipsec reload"],
        .returned⟩ := by
  decide

/-! ## Self-registration -/

/-- C4 as stated fails: node `A` does not carry the membership label, node
`B` is labeled, ready and resolves to the local IP; the run issues no update
call. -/
theorem unlabeled_local_node_no_update :
    labelsGet nodeAUnlabeled.labels nodeKey ≠ "true" ∧
      (clusterEnv [nodeAUnlabeled, readyNode "B" memberLabels [⟨NodeInternalIP, "10.0.0.1"⟩]]
        ).getResult syncerA.nodeName = .ok nodeAUnlabeled ∧
      updateCalls (reloadVPN syncerA
        (clusterEnv [nodeAUnlabeled,
          readyNode "B" memberLabels [⟨NodeInternalIP, "10.0.0.1"⟩]])).trace = [] :=
  ⟨by decide, rfl, by decide⟩

/-- C4, amended: when no ready listed node resolves to `nodeIP` and `Get` of
the local node returns a node with a non-nil label map, the run issues exactly
one update call, for that node with the membership label set to "true",
whether the Peer Set is empty or not. -/
theorem self_registration_update (s : Syncer) (env : Env) (items : List Node) (node : Node)
    (m : List (String × String)) (hl : env.listResult = .ok items)
    (hno : ∀ n ∈ items, isNodeReady n = true → resolveIP n ≠ s.nodeIP)
    (hg : env.getResult s.nodeName = .ok node) (hm : node.labels = some m) :
    updateCalls (reloadVPN s env).trace =
        [{ node with labels := some (mapSet m nodeKey "true") }] ∧
      labelsGet (some (mapSet m nodeKey "true")) nodeKey = "true" := by
  have hh : hasLabel s.nodeIP items = false := (hasLabel_eq_false_iff _ _).mpr hno
  refine ⟨?_, mapGet_mapSet_self m nodeKey "true"⟩
  rw [reloadVPN_register s env items node m hl hh hg hm]
  split
  · simp [updateCalls]
  · rw [updateCalls_renderPeers]; simp [updateCalls]

/-- C10: when `hasLabel` is false and `Get` returns a node with a nil label
map, the run panics after the `List` and `Get` calls: no update, no config
write, no reload; with a non-nil map the update call carries that map with
the membership label set to "true" and every other label as it was. -/
theorem nil_label_map_faults (s : Syncer) (env : Env) (items : List Node) (node : Node)
    (hl : env.listResult = .ok items) (hh : hasLabel s.nodeIP items = false)
    (hg : env.getResult s.nodeName = .ok node) :
    (node.labels = none →
      reloadVPN s env = ⟨[.list, .get s.nodeName], .panicked⟩ ∧
        updateCalls (reloadVPN s env).trace = [] ∧
        writeCount (reloadVPN s env).trace = 0 ∧
        reloadCount (reloadVPN s env).trace = 0) ∧
      ∀ m, node.labels = some m →
        updateCalls (reloadVPN s env).trace =
            [{ node with labels := some (mapSet m nodeKey "true") }] ∧
          mapGet (mapSet m nodeKey "true") nodeKey = "true" ∧
          mapHas (mapSet m nodeKey "true") nodeKey = true ∧
          ∀ k, k ≠ nodeKey →
            mapGet (mapSet m nodeKey "true") k = mapGet m k ∧
              mapHas (mapSet m nodeKey "true") k = mapHas m k := by
  constructor
  · intro hm
    have hrun : reloadVPN s env = ⟨[.list, .get s.nodeName], .panicked⟩ := by
      rw [reloadVPN_eq, hl]
      simp only [hh, hg, hm]
      simp
    rw [hrun]
    simp [updateCalls, writeCount, reloadCount]
  · intro m hm
    refine ⟨?_, mapGet_mapSet_self m nodeKey "true", mapHas_mapSet_self m nodeKey "true",
      fun k hk => ⟨mapGet_mapSet_of_ne m nodeKey "true" k hk,
        mapHas_mapSet_of_ne m nodeKey "true" k hk⟩⟩
    rw [reloadVPN_register s env items node m hl hh hg hm]
    split
    · simp [updateCalls]
    · rw [updateCalls_renderPeers]; simp [updateCalls]

/-! ## Address resolution -/

theorem firstAddress_eq (t : String) (addrs : List NodeAddress) :
    firstAddress t addrs = ((firstOfType t addrs).map (fun a => a.address)).getD "" := by
  induction addrs with
  | nil => rfl
  | cons a rest ih =>
    by_cases h : a.type = t
    · simp [firstAddress, firstOfType, List.find?, h]
    · simpa [firstAddress, firstOfType, List.find?, h] using ih

/-- C7 as stated fails: the first internal entry of the node has the address
"", the stated rule yields "", and `reloadVPN` resolves the external
address. -/
theorem empty_internal_falls_through :
    isNodeReady nodeEmptyInternal = true ∧
      firstOfType NodeInternalIP nodeEmptyInternal.addresses = some ⟨NodeInternalIP, ""⟩ ∧
      resolveIPStated nodeEmptyInternal = "" ∧
      resolveIP nodeEmptyInternal = "203.0.113.7" ∧
      peerSet "10.0.0.1" [nodeEmptyInternal] = ["203.0.113.7"] := by
  decide

/-- C7, amended: the IP resolved for a node is the address of its first
internal entry when there is one and its address is not empty, otherwise the
address of its first external entry when there is one, otherwise the empty
string; a ready listed node resolving to the empty string puts an empty entry
in the Peer Set when `nodeIP` is not empty. -/
theorem resolveIP_rule (node : Node) :
    resolveIP node = resolveIPNonEmpty node ∧
      ∀ nodeIP items, node ∈ items → isNodeReady node = true → resolveIP node = "" →
        nodeIP ≠ "" → "" ∈ peerSet nodeIP items := by
  constructor
  · unfold resolveIP resolveIPNonEmpty
    simp only [firstAddress_eq]
    cases hi : firstOfType NodeInternalIP node.addresses with
    | none => cases he : firstOfType NodeExternalIP node.addresses <;> simp
    | some a =>
      by_cases ha : a.address = ""
      · cases he : firstOfType NodeExternalIP node.addresses <;> simp [Option.filter, ha]
      · simp [Option.filter, ha]
  · intro nodeIP items hmem hr hip hne
    exact (mem_peerSet_iff _ _ _).mpr ⟨node, hmem, hr, hip, Ne.symm hne⟩

/-! ## The update handler -/

/-- C6: on an update event carrying two nodes, `UpdateFunc` sends one trigger
if and only if the value read under the membership label differs between old
and new or `isNodeReady` differs, and none otherwise; an update that only sets
another label sends none, and one whose readiness goes from true to false
sends exactly one. -/
theorem update_trigger_iff (oldNode newNode : Node) :
    (UpdateFunc (.node oldNode) (.node newNode) = 1 ↔
        labelsGet oldNode.labels nodeKey ≠ labelsGet newNode.labels nodeKey ∨
          isNodeReady oldNode ≠ isNodeReady newNode) ∧
      (UpdateFunc (.node oldNode) (.node newNode) = 0 ↔
        ¬ (labelsGet oldNode.labels nodeKey ≠ labelsGet newNode.labels nodeKey ∨
          isNodeReady oldNode ≠ isNodeReady newNode)) ∧
      (∀ k v, k ≠ nodeKey →
        UpdateFunc (.node oldNode)
          (.node { oldNode with labels := some (mapSet (oldNode.labels.getD []) k v) }) = 0) ∧
      (isNodeReady oldNode = true → isNodeReady newNode = false →
        UpdateFunc (.node oldNode) (.node newNode) = 1) := by
  refine ⟨?_, ?_, ?_, ?_⟩
  · unfold UpdateFunc
    simp only
    split <;> simp_all
  · unfold UpdateFunc
    simp only
    split <;> simp_all
  · intro k v hk
    have hget : labelsGet (some (mapSet (oldNode.labels.getD []) k v)) nodeKey =
        labelsGet oldNode.labels nodeKey := by
      cases hlab : oldNode.labels with
      | none => simp [labelsGet, mapSet, mapGet, hk]
      | some m => simpa [labelsGet] using mapGet_mapSet_of_ne m k v nodeKey (Ne.symm hk)
    simp [UpdateFunc, hget, isNodeReady]
  · intro ho hn
    simp [UpdateFunc, ho, hn]

/-! ## The theorems at concrete clusters -/

theorem peerSet_excludes_nodeIP_witness :
    (clusterEnv [nodeA, nodeB, nodeC]).listResult = .ok [nodeA, nodeB, nodeC] ∧
      (syncerA.nodeIP ∉ peerSet syncerA.nodeIP [nodeA, nodeB, nodeC] ∧
        ∀ hostIP ips,
          Event.execute hostIP ips ∈
              (reloadVPN syncerA (clusterEnv [nodeA, nodeB, nodeC])).trace →
            ips = peerSet syncerA.nodeIP [nodeA, nodeB, nodeC] ∧ syncerA.nodeIP ∉ ips) :=
  ⟨rfl, peerSet_excludes_nodeIP syncerA (clusterEnv [nodeA, nodeB, nodeC])
    [nodeA, nodeB, nodeC] rfl⟩

theorem write_and_reload_gated_witness :
    (reloadVPN syncerA (clusterEnv [nodeA, nodeB, nodeC])).outcome = .returned ∧
      ∃ items, (clusterEnv [nodeA, nodeB, nodeC]).listResult = .ok items ∧
        (peerSet syncerA.nodeIP items = [] →
          writeCount (reloadVPN syncerA (clusterEnv [nodeA, nodeB, nodeC])).trace = 0 ∧
            reloadCount (reloadVPN syncerA (clusterEnv [nodeA, nodeB, nodeC])).trace = 0 ∧
            Event.openFile ∉ (reloadVPN syncerA (clusterEnv [nodeA, nodeB, nodeC])).trace) ∧
        (peerSet syncerA.nodeIP items ≠ [] →
          ∃ pre, (reloadVPN syncerA (clusterEnv [nodeA, nodeB, nodeC])).trace =
              pre ++ [.openFile, .execute syncerA.nodeIP (peerSet syncerA.nodeIP items),
                .close, .run syncerA.reloadCmd] ∧
            writeCount pre = 0 ∧ reloadCount pre = 0 ∧ Event.openFile ∉ pre ∧
            writeCount (reloadVPN syncerA (clusterEnv [nodeA, nodeB, nodeC])).trace = 1 ∧
            reloadCount (reloadVPN syncerA (clusterEnv [nodeA, nodeB, nodeC])).trace = 1) :=
  ⟨by decide, write_and_reload_gated syncerA (clusterEnv [nodeA, nodeB, nodeC]) (by decide)⟩

theorem self_registration_update_witness :
    (clusterEnv [nodeAUnlabeled]).listResult = .ok [] ∧
      (∀ n ∈ ([] : List Node), isNodeReady n = true → resolveIP n ≠ syncerA.nodeIP) ∧
      (clusterEnv [nodeAUnlabeled]).getResult syncerA.nodeName = .ok nodeAUnlabeled ∧
      nodeAUnlabeled.labels = some [("kubernetes.io/hostname", "a")] ∧
      (updateCalls (reloadVPN syncerA (clusterEnv [nodeAUnlabeled])).trace =
          [{ nodeAUnlabeled with
              labels := some (mapSet [("kubernetes.io/hostname", "a")] nodeKey "true") }] ∧
        labelsGet (some (mapSet [("kubernetes.io/hostname", "a")] nodeKey "true")) nodeKey =
          "true") ∧
      writeCount (reloadVPN syncerA (clusterEnv [nodeAUnlabeled])).trace = 0 ∧
      reloadCount (reloadVPN syncerA (clusterEnv [nodeAUnlabeled])).trace = 0 :=
  ⟨rfl, by simp, rfl, rfl,
    self_registration_update syncerA (clusterEnv [nodeAUnlabeled]) [] nodeAUnlabeled
      [("kubernetes.io/hostname", "a")] rfl (by simp) rfl rfl,
    by decide, by decide⟩

theorem not_ready_contributes_nothing_witness :
    isNodeReady nodeBNotReady = false ∧
      labelsGet nodeBNotReady.labels nodeKey = "true" ∧
      (peerSet "10.0.0.1" ([nodeA] ++ nodeBNotReady :: [nodeC]) =
          peerSet "10.0.0.1" ([nodeA] ++ [nodeC]) ∧
        hasLabel "10.0.0.1" ([nodeA] ++ nodeBNotReady :: [nodeC]) =
          hasLabel "10.0.0.1" ([nodeA] ++ [nodeC])) :=
  ⟨by decide, by decide,
    not_ready_contributes_nothing "10.0.0.1" [nodeA] [nodeC] nodeBNotReady (by decide)⟩

theorem update_trigger_iff_witness :
    isNodeReady nodeB = true ∧ isNodeReady nodeBNotReady = false ∧
      UpdateFunc (.node nodeB) (.node nodeBNotReady) = 1 ∧
      UpdateFunc (.node nodeB)
        (.node { nodeB with labels := some (mapSet (nodeB.labels.getD []) "zone" "eu") }) = 0 :=
  ⟨by decide, by decide,
    (update_trigger_iff nodeB nodeBNotReady).2.2.2 (by decide) (by decide),
    (update_trigger_iff nodeB nodeBNotReady).2.2.1 "zone" "eu" (by decide)⟩

theorem resolveIP_rule_witness :
    nodeNoAddress ∈ [nodeA, nodeNoAddress] ∧ isNodeReady nodeNoAddress = true ∧
      resolveIP nodeNoAddress = "" ∧ ("10.0.0.1" : String) ≠ "" ∧
      resolveIP nodeNoAddress = resolveIPNonEmpty nodeNoAddress ∧
      "" ∈ peerSet "10.0.0.1" [nodeA, nodeNoAddress] :=
  ⟨by decide, by decide, by decide, by decide, (resolveIP_rule nodeNoAddress).1,
    (resolveIP_rule nodeNoAddress).2 "10.0.0.1" [nodeA, nodeNoAddress] (by decide) (by decide)
      (by decide) (by decide)⟩

theorem peerSet_perm_invariant_witness :
    [nodeA, nodeB, nodeC].Perm [nodeC, nodeA, nodeB] ∧
      (peerSet syncerA.nodeIP [nodeA, nodeB, nodeC] =
          peerSet syncerA.nodeIP [nodeC, nodeA, nodeB] ∧
        hasLabel syncerA.nodeIP [nodeA, nodeB, nodeC] =
          hasLabel syncerA.nodeIP [nodeC, nodeA, nodeB] ∧
        reloadVPN syncerA { clusterEnv [] with listResult := .ok [nodeA, nodeB, nodeC] } =
          reloadVPN syncerA { clusterEnv [] with listResult := .ok [nodeC, nodeA, nodeB] }) :=
  ⟨by decide,
    peerSet_perm_invariant syncerA (clusterEnv []) [nodeA, nodeB, nodeC] [nodeC, nodeA, nodeB]
      (by decide)⟩

theorem nil_label_map_faults_witness :
    (clusterEnv [nodeANil]).listResult = .ok [] ∧
      hasLabel syncerA.nodeIP [] = false ∧
      (clusterEnv [nodeANil]).getResult syncerA.nodeName = .ok nodeANil ∧
      nodeANil.labels = none ∧
      (reloadVPN syncerA (clusterEnv [nodeANil]) = ⟨[.list, .get syncerA.nodeName], .panicked⟩ ∧
        updateCalls (reloadVPN syncerA (clusterEnv [nodeANil])).trace = [] ∧
        writeCount (reloadVPN syncerA (clusterEnv [nodeANil])).trace = 0 ∧
        reloadCount (reloadVPN syncerA (clusterEnv [nodeANil])).trace = 0) :=
  ⟨rfl, by decide, rfl, rfl,
    (nil_label_map_faults syncerA (clusterEnv [nodeANil]) [] nodeANil rfl (by decide) rfl).1 rfl⟩

end Swanc
